import Mathlib

/-!
Shallow embedding of the core of `facr-scraper` (`src/main.go`): the entity
resolution pipeline of a football-federation scraper.  Strings are modelled as
Lean `String` / rune lists (`List Char`); network fetches and the goquery HTML
selections are passed in as data (a `FetchResult` with the extracted row texts),
so every definition is executable.  The `unicode` case mapping is modelled on
the ASCII / Latin-1 / Latin-Extended-A repertoire of the scraped Czech data.
-/

namespace Facr

/-- Go `unicode.IsSpace` (the Unicode White_Space property), used by
`strings.TrimSpace` and `strings.Fields`. -/
def goIsSpace (c : Char) : Bool :=
  let n := c.toNat
  decide ((9 ≤ n ∧ n ≤ 13) ∨ n = 32 ∨ n = 133 ∨ n = 160 ∨ n = 5760 ∨
    (8192 ≤ n ∧ n ≤ 8202) ∨ n = 8232 ∨ n = 8233 ∨ n = 8239 ∨ n = 8287 ∨ n = 12288)

/-- Go `unicode.ToLower`, on the ASCII / Latin-1 Supplement / Latin Extended-A
repertoire (all the letters that occur in the scraped Czech club data). -/
def goToLower (c : Char) : Char :=
  let n := c.toNat
  if 65 ≤ n ∧ n ≤ 90 then Char.ofNat (n + 32)
  else if 192 ≤ n ∧ n ≤ 222 ∧ n ≠ 215 then Char.ofNat (n + 32)
  else if (256 ≤ n ∧ n ≤ 311 ∨ 330 ≤ n ∧ n ≤ 375) ∧ n % 2 = 0 then Char.ofNat (n + 1)
  else if (313 ≤ n ∧ n ≤ 328 ∨ 377 ≤ n ∧ n ≤ 382) ∧ n % 2 = 1 then Char.ofNat (n + 1)
  else c

/-- `strings.TrimSpace` on a rune list. -/
def goTrimSpaceL (s : List Char) : List Char :=
  ((s.dropWhile goIsSpace).reverse.dropWhile goIsSpace).reverse

/-- `strings.TrimSpace`. -/
def trimS (s : String) : String := String.mk (goTrimSpaceL s.data)

/-- Per-rune lowering of a rune list (`strings.ToLower`). -/
def lowerL (s : List Char) : List Char := s.map goToLower

/-- `strings.ToLower`. -/
def lowerS (s : String) : String := String.mk (lowerL s.data)

/-- `pat` is a leading segment of `s` (rune-wise). -/
def leadsWith : List Char → List Char → Bool
  | [], _ => true
  | _ :: _, [] => false
  | a :: as, b :: bs => a == b && leadsWith as bs

/-- Go `strings.Contains` on rune lists (an empty pattern is contained
everywhere, as in Go). -/
def containsSeq : List Char → List Char → Bool
  | [], pat => pat.isEmpty
  | c :: rest, pat => leadsWith pat (c :: rest) || containsSeq rest pat

/-- Go `strings.Contains`. -/
def goContainsStr (s pat : String) : Bool := containsSeq s.data pat.data

/-- Go `strings.EqualFold`, modelled as equality after per-rune lowering
(adequate on the ASCII/Latin repertoire of the scraped data). -/
def eqFold (a b : String) : Bool := lowerL a.data == lowerL b.data

/-- `containsFold` from src/main.go (lines 1106-1113): fold-insensitive
substring test on trimmed strings; an empty needle never matches. -/
def containsFold (s substr : String) : Bool :=
  let s' := lowerL (goTrimSpaceL s.data)
  let sub := lowerL (goTrimSpaceL substr.data)
  if sub.isEmpty then false else containsSeq s' sub

/-- Accumulator loop behind `goFields`. -/
def goFieldsAux : List Char → List Char → List (List Char)
  | [], acc => if acc.isEmpty then [] else [acc.reverse]
  | c :: cs, acc =>
    if goIsSpace c then
      if acc.isEmpty then goFieldsAux cs [] else acc.reverse :: goFieldsAux cs []
    else goFieldsAux cs (c :: acc)

/-- Go `strings.Fields`: split a rune list on maximal whitespace runs. -/
def goFields (s : List Char) : List (List Char) := goFieldsAux s []

/-- The `strings.Trim` cutset used by `simplifyClubQuery`
(comma, period, semicolon, colon, hyphen, brackets, quote characters). -/
def simplifyCutset : List Char :=
  [Char.ofNat 44, Char.ofNat 46, Char.ofNat 59, Char.ofNat 58, Char.ofNat 45,
   Char.ofNat 40, Char.ofNat 41, Char.ofNat 91, Char.ofNat 93, Char.ofNat 123,
   Char.ofNat 125, Char.ofNat 34, Char.ofNat 39, Char.ofNat 96,
   Char.ofNat 8220, Char.ofNat 8221, Char.ofNat 8217]

/-- `strings.Trim tok cutset`: strip surrounding punctuation. -/
def trimCutset (s : List Char) : List Char :=
  ((s.dropWhile (simplifyCutset.contains ·)).reverse.dropWhile
      (simplifyCutset.contains ·)).reverse

/-- The legal-entity-suffix stopword set of `simplifyClubQuery`. -/
def stopTokens : List String :=
  ["z.s.", "z.s", "zs", "zapsany", "zapsaný", "spolek",
   "o.s.", "o.s", "os", "a.s.", "a.s", "as",
   "s.r.o.", "s.r.o", "sro"]

/-- The character class of the `[a-zA-Zá-žÁ-Ž]` regular expression in
`simplifyClubQuery` (note it is the literal code-point ranges, which cover all
Czech letters). -/
def letterClass (c : Char) : Bool :=
  let n := c.toNat
  decide ((65 ≤ n ∧ n ≤ 90) ∨ (97 ≤ n ∧ n ≤ 122) ∨ (193 ≤ n ∧ n ≤ 381) ∨ n = 382)

/-- The backward scan of `simplifyClubQuery`; the argument is the word list
reversed, so the head is the last word of the name. -/
def simplifyScan : List (List Char) → Option (List Char)
  | [] => none
  | p :: rest =>
    let lt := lowerL (trimCutset p)
    if stopTokens.contains (String.mk lt) then simplifyScan rest
    else if 3 ≤ lt.length ∧ lt.any letterClass then some lt
    else simplifyScan rest

/-- `simplifyClubQuery` from src/main.go (lines 341-372). -/
def simplifyClubQuery (name : String) : String :=
  let s := goTrimSpaceL name.data
  if s.isEmpty then "" else
  let parts := goFields s
  if parts.isEmpty then "" else
  match simplifyScan parts.reverse with
  | some lt => String.mk lt
  | none => String.mk (lowerL (trimCutset (parts.getLastD [])))

/-- The word-acceptance test of the backward scan: not a stopword, rune length
at least 3, and at least one letter of the adapter's letter class. -/
def scanPred (lt : List Char) : Bool :=
  !stopTokens.contains (String.mk lt) && decide (3 ≤ lt.length) && lt.any letterClass

/-- `simplify` as the specification words it: split on whitespace, scan from
the last word backward, strip surrounding punctuation, skip legal-entity
stopwords, and return (lower-cased) the first word of rune length at least 3
containing a letter; fall back to the sanitized lower-cased last word. -/
def simplifySpec (name : String) : String :=
  let parts := goFields (goTrimSpaceL name.data)
  if parts.isEmpty then "" else
  let sanitized := parts.reverse.map (fun p => lowerL (trimCutset p))
  match sanitized.find? scanPred with
  | some lt => String.mk lt
  | none => String.mk (lowerL (trimCutset (parts.getLastD [])))

/-- Hexadecimal digit (`[0-9a-fA-F]`). -/
def isHexDigit (c : Char) : Bool :=
  let n := c.toNat
  decide ((48 ≤ n ∧ n ≤ 57) ∨ (97 ≤ n ∧ n ≤ 102) ∨ (65 ≤ n ∧ n ≤ 70))

/-- Consume exactly `n` hex digits, returning the remainder. -/
def hexRun : Nat → List Char → Option (List Char)
  | 0, s => some s
  | _ + 1, [] => none
  | n + 1, c :: cs => if isHexDigit c then hexRun n cs else none

/-- Consume one hyphen. -/
def dashStep : List Char → Option (List Char)
  | [] => none
  | c :: cs => if c == Char.ofNat 45 then some cs else none

/-- Remainder after a leading `8-4-4-4-12` UUID token, if the list starts with
one (the UUID regular expression of `extractUUIDFromHref`, anchored here). -/
def uuidLead (s : List Char) : Option (List Char) :=
  hexRun 8 s >>= dashStep >>= hexRun 4 >>= dashStep >>= hexRun 4 >>=
    dashStep >>= hexRun 4 >>= dashStep >>= hexRun 12

/-- Leftmost 36-rune substring of the canonical UUID shape — the regular
expression's `FindString`. -/
def findUUID : List Char → Option (List Char)
  | [] => none
  | c :: cs =>
    if (uuidLead (c :: cs)).isSome then some ((c :: cs).take 36) else findUUID cs

/-- Go `strings.Split` on the path separator `/`. -/
def splitSlash : List Char → List (List Char)
  | [] => [[]]
  | c :: cs =>
    if c == Char.ofNat 47 then [] :: splitSlash cs
    else
      match splitSlash cs with
      | [] => [[c]]
      | p :: ps => (c :: p) :: ps

/-- Last element of a nonempty token list (`parts[len(parts)-1]`). -/
def lastTok : List (List Char) → List Char
  | [] => []
  | [p] => p
  | _ :: p :: ps => lastTok (p :: ps)

/-- `extractUUIDFromHref` from src/main.go (lines 1116-1134). -/
def extractUUIDFromHref (href : String) : String :=
  let h := trimS href
  if h = "" then "" else
  match findUUID h.data with
  | some u => String.mk u
  | none =>
    let cand := lastTok (splitSlash h.data)
    if (findUUID cand).isSome then String.mk cand else ""

/-- The list is exactly one UUID token and nothing else. -/
def uuidExact (s : List Char) : Bool := uuidLead s == some ([] : List Char)

/-- `extract_id` as the specification words it: first substring of the exact
UUID shape if one exists, else the final path segment when that segment alone
matches the shape, else empty. -/
def extractUUIDSpec (href : String) : String :=
  let h := trimS href
  match findUUID h.data with
  | some u => String.mk u
  | none =>
    let cand := lastTok (splitSlash h.data)
    if uuidExact cand then String.mk cand else ""

/-- ASCII digit (`[0-9]` / `\d` in the Go regular expressions). -/
def isAsciiDigit (c : Char) : Bool :=
  decide (48 ≤ c.toNat ∧ c.toNat ≤ 57)

/-- `\s` of Go's regexp package (ASCII whitespace). -/
def reSpace (c : Char) : Bool :=
  let n := c.toNat
  decide (n = 9 ∨ n = 10 ∨ n = 12 ∨ n = 13 ∨ n = 32)

/-- One anchored attempt of the score regular expressions
(`\s*([0-9]+)\s*:\s*([0-9]+)\s*` and `(\d+)\s*:\s*(\d+)`): a digit run,
optional whitespace, a colon, optional whitespace, a digit run; the two runs
are the capture groups.  Leading/trailing `\s*` never changes the groups. -/
def scoreGroupsAt (s : List Char) : Option (List Char × List Char) :=
  let d1 := s.takeWhile isAsciiDigit
  if d1.isEmpty then none else
  match (s.dropWhile isAsciiDigit).dropWhile reSpace with
  | c :: rest =>
    if c == Char.ofNat 58 then
      let d2 := (rest.dropWhile reSpace).takeWhile isAsciiDigit
      if d2.isEmpty then none else some (d1, d2)
    else none
  | [] => none

/-- Leftmost match of the score regular expressions (`FindStringSubmatch`). -/
def findScore : List Char → Option (List Char × List Char)
  | [] => none
  | c :: cs =>
    match scoreGroupsAt (c :: cs) with
    | some r => some r
    | none => findScore cs

/-- Score handling of the IS adapter (src/main.go lines 260-264): re-emit the
two captured integer groups as `home:away`, or the empty string when the
pattern does not occur. -/
def normalizeScoreIS (cell : String) : String :=
  match findScore (goTrimSpaceL cell.data) with
  | some (a, b) => String.mk (a ++ Char.ofNat 58 :: b)
  | none => ""

/-- Score handling of the fotbal.cz adapter (lines 113-118) and of the
standings extractor (lines 754-761): same re-emission, but an unparsable score
is left as the trimmed raw text. -/
def normalizeScoreKeep (cell : String) : String :=
  match findScore (goTrimSpaceL cell.data) with
  | some (a, b) => String.mk (a ++ Char.ofNat 58 :: b)
  | none => String.mk (goTrimSpaceL cell.data)

/-- The involvement filter exactly as both adapters implement it (src/main.go
lines 149-168 and 292-308); `true` means the row is retained (an empty club
context skips the filter, so every row is retained). -/
def involvedCheck (clubName clubID home away homeID awayID : String) : Bool :=
  if clubName = "" ∧ clubID = "" then true
  else if clubID ≠ "" ∧ (eqFold homeID clubID || eqFold awayID clubID) then true
  else if clubName ≠ "" then
    if eqFold home clubName || eqFold away clubName ||
        containsFold clubName home || containsFold clubName away ||
        containsFold home clubName || containsFold away clubName then true
    else
      decide (simplifyClubQuery clubName ≠ "") &&
        (containsFold home (simplifyClubQuery clubName) ||
         containsFold away (simplifyClubQuery clubName))
  else false

/-- The Involvement Filter as the claim words it: an empty club context
matches everything; otherwise, in priority order, (a) a resolved identifier on
either side equals `club_id` case-insensitively, else (b) the club name equals
a team name or substring containment holds in either direction against a team
name, else (c) the simplified token of the club name occurs in a team name. -/
def involvedSpec (clubName clubID home away homeID awayID : String) : Bool :=
  if clubName = "" ∧ clubID = "" then true
  else if (homeID ≠ "" ∧ eqFold homeID clubID) ∨ (awayID ≠ "" ∧ eqFold awayID clubID) then true
  else if clubName ≠ "" ∧ (eqFold clubName home || eqFold clubName away ||
      containsFold clubName home || containsFold home clubName ||
      containsFold clubName away || containsFold away clubName) then true
  else
    decide (clubName ≠ "") &&
      (containsFold home (simplifyClubQuery clubName) ||
       containsFold away (simplifyClubQuery clubName))

/-- ID backfill for one side, identical in both adapters (src/main.go lines
170-189 and 310-321): a side that lacks an identifier receives the queried
club id when its name matches the club by name equality / two-way containment
/ the simplified token. -/
def backfillID (clubName clubID side sideID : String) : String :=
  if sideID = "" then
    if eqFold side clubName || containsFold side clubName || containsFold clubName side then
      clubID
    else if decide (simplifyClubQuery clubName ≠ "") &&
        containsFold side (simplifyClubQuery clubName) then clubID
    else ""
  else sideID

/-- Per-side name match as the claim words it (the same name/token rules the
Involvement Filter uses, applied to one side). -/
def sideNameMatches (clubName side : String) : Bool :=
  eqFold clubName side || containsFold clubName side || containsFold side clubName ||
  containsFold side (simplifyClubQuery clubName)

/-- A candidate match record (the `Match` struct of src/main.go). -/
structure Match where
  dateTime : String
  home : String
  homeID : String
  homeLogoURL : String
  away : String
  awayID : String
  awayLogoURL : String
  score : String
  venue : String
  note : String
  matchID : String
  reportURL : String
  delegationURL : String
deriving DecidableEq

instance : Inhabited Match :=
  ⟨⟨"", "", "", "", "", "", "", "", "", "", "", "", ""⟩⟩

/-- Report-URL synthesis from a match id, branching on the discipline
(both adapters, src/main.go lines 140-147 and 284-290). -/
def reportURLFor (clubType matchID : String) : String :=
  if matchID ≠ "" then
    if eqFold clubType "futsal" then
      "https://www.fotbal.cz/futsal/zapasy/futsal/" ++ matchID
    else
      "https://www.fotbal.cz/souteze/zapasy/zapas/" ++ matchID
  else ""

/-- One `li.MatchRound` row of the public fotbal.cz competition page that has a
match anchor, after text extraction (the goquery selections are modelled as
the extracted raw texts and attributes). -/
structure FotbalRow where
  /-- texts of the `span.H7` team-name nodes, in document order -/
  spanTexts : List String
  /-- `src` attributes of the `img` nodes inside the match link -/
  imgSrcs : List String
  /-- text of the first `strong.H4` (score) node -/
  scoreText : String
  /-- `(strong label text, full p text)` pairs of `.MatchRound-meta p` -/
  metaEntries : List (String × String)
  /-- `(strong label text, full p text)` pairs of `.js-matchRoundDetails li p` -/
  detailEntries : List (String × String)
  /-- `href` of the match anchor -/
  anchorHref : String
deriving DecidableEq

/-- Nonempty trimmed team names of a fotbal.cz row (src/main.go lines 88-94). -/
def fotbalTeamNames (r : FotbalRow) : List String :=
  (r.spanTexts.map trimS).filter (fun t => t ≠ "")

/-- `strings.ReplaceAll` on rune lists (left-to-right, non-overlapping; the
empty-pattern rune-interleaving case never arises in the source since the
pattern always ends in a colon). -/
def replaceAllL (pat rep : List Char) : List Char → List Char
  | [] => []
  | c :: cs =>
    if leadsWith pat (c :: cs) ∧ pat ≠ [] then
      rep ++ replaceAllL pat rep (cs.drop (pat.length - 1))
    else c :: replaceAllL pat rep cs
termination_by s => s.length
decreasing_by
  · simp only [List.length_drop, List.length_cons]
    omega
  · simp only [List.length_cons]
    omega

/-- Label-scanning loop of the fotbal.cz adapter (src/main.go lines 120-137):
for each paragraph whose bold label starts with one of the wanted words
(lower-cased), keep the paragraph text with `label:` removed; the last match
wins, default empty. -/
def labelValue (entries : List (String × String)) (want : List String) : String :=
  entries.foldl (fun acc e =>
    let label := trimS e.1
    let txt := trimS e.2
    if want.any (fun w => leadsWith w.data (lowerS label).data) then
      trimS (String.mk (replaceAllL (label ++ ":").data "".data txt.data))
    else acc) ""

/-- Side ids of a fotbal.cz row: UUIDs extracted from the img sources, in
order (src/main.go lines 101-108). -/
def fotbalImgIDs (r : FotbalRow) : List String :=
  r.imgSrcs.filterMap (fun src0 =>
    let src := trimS src0
    if src = "" then none
    else if extractUUIDFromHref src = "" then none
    else some (extractUUIDFromHref src))

/-- Row processing of the fotbal.cz adapter after field extraction
(src/main.go lines 82-201): team-name collection, id extraction from the
img urls, score normalization, meta/detail label scanning, involvement filter,
backfill, logo resolution and record assembly.  The logo resolver is passed in
as a function (its cache effects are modelled separately with `getLogo`).
Returns `none` when the row is skipped. -/
def processFotbalRow (logo : String → String → String)
    (clubType clubName clubID : String) (r : FotbalRow) : Option Match :=
  let teamNames := fotbalTeamNames r
  if teamNames.length < 2 then none else
  let home := teamNames.getD 0 ""
  let away := teamNames.getD 1 ""
  let imgIDs := fotbalImgIDs r
  let homeID0 := imgIDs.getD 0 ""
  let awayID0 := imgIDs.getD 1 ""
  let score := normalizeScoreKeep r.scoreText
  let dateText := labelValue r.metaEntries ["datum"]
  let venue := labelValue r.detailEntries ["hřiště", "hriste"]
  let matchID := extractUUIDFromHref r.anchorHref
  if involvedCheck clubName clubID home away homeID0 awayID0 then
    let homeID := backfillID clubName clubID home homeID0
    let awayID := backfillID clubName clubID away awayID0
    some { dateTime := dateText, home := home, homeID := homeID,
           homeLogoURL := logo home homeID,
           away := away, awayID := awayID, awayLogoURL := logo away awayID,
           score := score, venue := venue, note := "",
           matchID := matchID, reportURL := reportURLFor clubType matchID,
           delegationURL := "" }
  else none

/-- Truncate at the first opening parenthesis and trim — the team-name cell
handling of the IS adapter (src/main.go lines 255 and 257). -/
def truncParen (s : String) : String :=
  match s.data.findIdx? (fun c => c == Char.ofNat 40) with
  | some i => trimS (String.mk (s.data.take i))
  | none => s

/-- One `table.soutez-zapasy tr` row of the IS detail page, after text
extraction.  `matchID`, `reportHref` and `delegHref` are the outputs of the
last-column link scan (the `?zapas=` query value and the two recognized IS
report/delegation links after `resolveISURL`), whose `net/url` parsing is an
external collaborator. -/
structure ISRow where
  /-- the row contains a `th` cell (header row) -/
  hasTh : Bool
  /-- all `td` texts, in order (raw) -/
  cellTexts : List String
  /-- `href` of the first link in the home-team cell -/
  homeHref : String
  /-- `href` of the first link in the away-team cell -/
  awayHref : String
  /-- `zapas` query value found in the last-column links -/
  matchID : String
  /-- recognized `zapis-o-utkani-report.aspx` link, already resolved -/
  reportHref : String
  /-- recognized `zapas-delegace-report.aspx` link, already resolved -/
  delegHref : String
deriving DecidableEq

/-- Comparable home name of an IS row. -/
def ISRow.rawHome (r : ISRow) : String := truncParen (trimS (r.cellTexts.getD 1 ""))

/-- Comparable away name of an IS row. -/
def ISRow.rawAway (r : ISRow) : String := truncParen (trimS (r.cellTexts.getD 2 ""))

/-- Row processing of the IS adapter (src/main.go lines 247-325): skip header
and short rows, truncate team names at an opening parenthesis, extract side
ids from the cell links, normalize the score, apply the involvement filter,
backfill, resolve logos and assemble the record. -/
def processISRow (logo : String → String → String)
    (clubType clubName clubID : String) (r : ISRow) : Option Match :=
  if r.hasTh then none else
  if r.cellTexts.length < 5 then none else
  let dt := trimS (r.cellTexts.getD 0 "")
  let rawHome := r.rawHome
  let rawAway := r.rawAway
  let homeID0 := extractUUIDFromHref r.homeHref
  let awayID0 := extractUUIDFromHref r.awayHref
  let score := normalizeScoreIS (r.cellTexts.getD 3 "")
  let venue := if 4 < r.cellTexts.length then trimS (r.cellTexts.getD 4 "") else ""
  let reportURL := reportURLFor clubType r.matchID
  if involvedCheck clubName clubID rawHome rawAway homeID0 awayID0 then
    let homeID := backfillID clubName clubID rawHome homeID0
    let awayID := backfillID clubName clubID rawAway awayID0
    some { dateTime := dt, home := rawHome, homeID := homeID,
           homeLogoURL := logo rawHome homeID,
           away := rawAway, awayID := awayID, awayLogoURL := logo rawAway awayID,
           score := score, venue := venue, note := "",
           matchID := r.matchID,
           reportURL := if r.reportHref ≠ "" then r.reportHref else reportURL,
           delegationURL := r.delegHref }
  else none

/-- Outcome of one outbound document fetch: transport failure, or a status
code with an optionally readable/parsable body (already reduced to the
extracted rows). -/
inductive FetchResult (α : Type) where
  | transportError
  | response (code : Nat) (body : Option α)
deriving DecidableEq

/-- `parseCompetitionMatchesFromFotbal` (src/main.go lines 33-203): an empty
page URL, a transport error, a non-200 status and a read/parse failure all
yield the empty list; otherwise every extracted row is processed. -/
def parseCompetitionMatchesFromFotbal (logo : String → String → String)
    (pageURL clubType clubName clubID : String)
    (fetched : FetchResult (List FotbalRow)) : List Match :=
  if trimS pageURL = "" then [] else
  match fetched with
  | .transportError => []
  | .response code body =>
    if code ≠ 200 then [] else
    match body with
    | none => []
    | some rows => rows.filterMap (processFotbalRow logo clubType clubName clubID)

/-- `parseCompetitionMatchesFromIS` (src/main.go lines 206-330). -/
def parseCompetitionMatchesFromIS (logo : String → String → String)
    (clubType clubName clubID : String)
    (fetched : FetchResult (List ISRow)) : List Match :=
  match fetched with
  | .transportError => []
  | .response code body =>
    if code ≠ 200 then [] else
    match body with
    | none => []
    | some rows => rows.filterMap (processISRow logo clubType clubName clubID)

/-- One standings row (the `TableRow` struct of src/main.go). -/
structure TableRow where
  rank : String
  team : String
  teamID : String
  teamLogoURL : String
  played : String
  wins : String
  draws : String
  losses : String
  score : String
  points : String
deriving DecidableEq

/-- Standings sections (the `CompetitionTable` struct; only Overall is used). -/
structure CompetitionTable where
  overall : List TableRow
deriving DecidableEq

/-- A competition (the `Competition` struct of src/main.go). -/
structure Competition where
  id : String
  code : String
  name : String
  teamCount : String
  matchesLink : String
  matches' : List Match
  table : Option CompetitionTable
deriving DecidableEq

instance : Inhabited Competition := ⟨⟨"", "", "", "", "", [], none⟩⟩

/-- The per-competition enrichment loop of `getClubInfo` (src/main.go lines
880-893): run the fotbal.cz adapter and the IS adapter and prefer the IS
output whenever it is non-empty; both adapters' fetches are passed in as
per-competition outcomes. -/
def enrichMatches (logo : String → String → String)
    (clubType clubName clubID : String)
    (fetchFotbal : Competition → FetchResult (List FotbalRow))
    (fetchIS : Competition → FetchResult (List ISRow))
    (comps : List Competition) : List Competition :=
  comps.map fun comp =>
    let fotbalMatches := parseCompetitionMatchesFromFotbal logo comp.matchesLink
      clubType clubName clubID (fetchFotbal comp)
    let isMatches := parseCompetitionMatchesFromIS logo clubType clubName clubID
      (fetchIS comp)
    { comp with matches' := if isMatches.length > 0 then isMatches else fotbalMatches }

/-- Raw standings table row (`table.vysledky-tabulky` rows inside the matched
section). -/
structure TableRowRaw where
  /-- the row contains a `th` cell (header row) -/
  hasTh : Bool
  /-- all `td` texts, in order (raw) -/
  cellTexts : List String
  /-- `href` of the first link in the team cell -/
  teamHref : String
deriving DecidableEq

/-- Standings row processing from `parseSection` in `getClubTables`
(src/main.go lines 737-766). -/
def processTableRow (logo : String → String → String) (r : TableRowRaw) :
    Option TableRow :=
  if r.hasTh then none else
  if r.cellTexts.length < 8 then none else
  let get := fun i => trimS (r.cellTexts.getD i "")
  let teamID := extractUUIDFromHref r.teamHref
  some { rank := get 0, team := get 1, teamID := teamID,
         teamLogoURL := logo (get 1) teamID,
         played := get 2, wins := get 3, draws := get 4, losses := get 5,
         score := normalizeScoreKeep (r.cellTexts.getD 6 ""),
         points := get 7 }

/-- One iteration of the standings-enrichment loop of `getClubTables`
(src/main.go lines 702-776): any failure leaves the competition without a
table (`continue`), a parsed document always attaches a table. -/
def enrichTable (logo : String → String → String)
    (fetchTable : Competition → FetchResult (List TableRowRaw))
    (comp : Competition) : Competition :=
  match fetchTable comp with
  | .transportError => comp
  | .response code body =>
    if code ≠ 200 then comp else
    match body with
    | none => comp
    | some rows => { comp with table := some ⟨rows.filterMap (processTableRow logo)⟩ }

/-- Extracted fields of the primary club page (goquery selections modelled as
already-extracted texts). -/
structure ClubPageDoc where
  clubName : String
  clubInternalID : String
  clubURL : String
  logoURL : String
  address : String
  category : String
  competitions : List Competition
deriving DecidableEq

/-- The club info response (the `ClubInfo` struct of src/main.go). -/
structure ClubInfo where
  name : String
  clubID : String
  clubType : String
  clubInternalID : String
  url : String
  logoURL : String
  address : String
  category : String
  competitions : List Competition
deriving DecidableEq

/-- `getClubTables` (src/main.go lines 620-798): bad input is a 400; only the
primary club-page fetch surfaces an error status (transport/parse failure as
500, a non-200 upstream status as that status); each competition's standings
fetch is isolated in `enrichTable`. -/
def getClubTables (logo : String → String → String) (clubType clubID : String)
    (primary : FetchResult ClubPageDoc)
    (fetchTable : Competition → FetchResult (List TableRowRaw)) :
    Except Nat ClubInfo :=
  if clubID = "" then .error 400
  else if clubType ≠ "football" ∧ clubType ≠ "futsal" then .error 400
  else match primary with
  | .transportError => .error 500
  | .response code body =>
    if code ≠ 200 then .error code
    else match body with
    | none => .error 500
    | some page =>
      .ok { name := page.clubName, clubID := clubID, clubType := clubType,
            clubInternalID := page.clubInternalID, url := page.clubURL,
            logoURL := page.logoURL, address := page.address,
            category := page.category,
            competitions := page.competitions.map (enrichTable logo fetchTable) }

/-- One result row of the local `/club/search` endpoint as consumed by
`getLogoBySearch` (the `searchAPIResult` struct). -/
structure SearchEntry where
  name : String
  logoURL : String
deriving DecidableEq

/-- The search capability behind `getLogoBySearch`: `none` models a transport
error, a non-200 status or an undecodable payload; `some rs` a decoded result
list. -/
abbrev SearchFn := String → Option (List SearchEntry)

/-- The process-wide `logoCache` map, modelled as an association list where
the most recent insertion shadows older ones. -/
abbrev LogoCache := List (String × String)

/-- Map lookup. -/
def cacheGet (cache : LogoCache) (key : String) : Option String :=
  (cache.find? (fun e => e.1 == key)).map (·.2)

/-- Map insert (shadowing). -/
def cacheSet (cache : LogoCache) (key v : String) : LogoCache := (key, v) :: cache

/-- Best-match selection of `getLogoBySearch` (src/main.go lines 415-434):
first exact fold-equal name, else (if that left an empty logo) first two-way
containment against the cache key, else (if still empty) the first result. -/
def pickBest (name key : String) (results : List SearchEntry) : String :=
  let b1 := match results.find? (fun r => eqFold (trimS r.name) (trimS name)) with
    | some r => r.logoURL
    | none => ""
  let b2 :=
    if b1 = "" then
      match results.find? (fun r =>
          goContainsStr (lowerS r.name) key || goContainsStr key (lowerS r.name)) with
      | some r => r.logoURL
      | none => ""
    else b1
  if b2 = "" then
    match results with
    | [] => ""
    | r :: _ => r.logoURL
  else b2

/-- `getLogoBySearch` (src/main.go lines 374-437), with the cache threaded
explicitly and the number of issued search calls counted.  The simplified
token is queried first; a failed or empty token search falls back to the full
name; a transport failure of the fallback returns the empty string WITHOUT
caching it (the early `return ""`); every other outcome is cached. -/
def getLogoBySearch (search : SearchFn) (cache : LogoCache) (name : String) :
    String × LogoCache × Nat :=
  if lowerS (trimS name) = "" then ("", cache, 0) else
  match cacheGet cache (lowerS (trimS name)) with
  | some v => (v, cache, 0)
  | none =>
    match search (if simplifyClubQuery name = "" then name else simplifyClubQuery name) with
    | some res =>
      if res.length ≠ 0 then
        (pickBest name (lowerS (trimS name)) res,
         cacheSet cache (lowerS (trimS name)) (pickBest name (lowerS (trimS name)) res), 1)
      else
        match search name with
        | none => ("", cache, 2)
        | some res2 =>
          (pickBest name (lowerS (trimS name)) res2,
           cacheSet cache (lowerS (trimS name)) (pickBest name (lowerS (trimS name)) res2), 2)
    | none =>
      match search name with
      | none => ("", cache, 2)
      | some res2 =>
        (pickBest name (lowerS (trimS name)) res2,
         cacheSet cache (lowerS (trimS name)) (pickBest name (lowerS (trimS name)) res2), 2)

/-- The fixed placeholder logo URL. -/
def placeholderURL : String := "https://www.fotbal.cz/dist/img/logo-club-empty.svg"

/-- The id-templated official logo URL. -/
def idLogoURL (tid : String) : String :=
  "https://is1.fotbal.cz/media/kluby/" ++ tid ++ "/" ++ tid ++ "_crop.jpg"

/-- The free-slot/bye-marker test of `getLogo` on the normalized name. -/
def isNonTeamName (name : String) : Bool :=
  name = "" || goContainsStr name "volno" || goContainsStr name "volný los" ||
  goContainsStr name "volny los" || goContainsStr name "bye"

/-- `getLogo` (src/main.go lines 439-456), with the cache threaded explicitly
and the number of issued search calls counted: placeholder for empty/bye
names, the deterministic id URL for a non-empty id, otherwise the name-based
search with the placeholder as final fallback. -/
def getLogo (search : SearchFn) (cache : LogoCache) (teamName teamID : String) :
    String × LogoCache × Nat :=
  if isNonTeamName (lowerS (trimS teamName)) then (placeholderURL, cache, 0)
  else if trimS teamID ≠ "" then (idLogoURL (trimS teamID), cache, 0)
  else if (getLogoBySearch search cache teamName).1 ≠ "" then
    getLogoBySearch search cache teamName
  else (placeholderURL, (getLogoBySearch search cache teamName).2.1,
    (getLogoBySearch search cache teamName).2.2)

/-! ### Basic lemmas about the string primitives -/

theorem string_data_nil_iff (s : String) : s.data = [] ↔ s = "" := by
  constructor
  · intro h
    cases s with
    | mk d => cases h; rfl
  · intro h
    subst h
    rfl

theorem lowerL_length (l : List Char) : (lowerL l).length = l.length :=
  List.length_map l goToLower

theorem eqFold_comm (a b : String) : eqFold a b = eqFold b a := by
  unfold eqFold
  by_cases h : lowerL a.data = lowerL b.data
  · simp [h]
  · have h' : lowerL b.data ≠ lowerL a.data := fun hh => h hh.symm
    simp [beq_eq_false_iff_ne.mpr h, beq_eq_false_iff_ne.mpr h']

theorem eqFold_elim {a b : String} (h : eqFold a b = true) :
    lowerL a.data = lowerL b.data := eq_of_beq h

theorem eqFold_empty_balance {a b : String} (h : eqFold a b = true) :
    a = "" ↔ b = "" := by
  have hlen : a.data.length = b.data.length := by
    have := congrArg List.length (eqFold_elim h)
    simpa [lowerL_length] using this
  rw [← string_data_nil_iff, ← string_data_nil_iff,
    List.length_eq_zero.symm, List.length_eq_zero.symm, hlen]

theorem containsFold_empty_needle (s : String) : containsFold s "" = false := rfl

/-! ### The involvement filter: the code's check equals the claim's wording -/

theorem idCond_iff (cid hid aid : String) :
    (cid ≠ "" ∧ (eqFold hid cid || eqFold aid cid) = true) ↔
      ((hid ≠ "" ∧ eqFold hid cid = true) ∨ (aid ≠ "" ∧ eqFold aid cid = true)) := by
  constructor
  · rintro ⟨hcid, hor⟩
    rcases Bool.or_eq_true_iff.mp hor with h | h
    · exact Or.inl ⟨fun hh => hcid ((eqFold_empty_balance h).mp hh), h⟩
    · exact Or.inr ⟨fun hh => hcid ((eqFold_empty_balance h).mp hh), h⟩
  · rintro (⟨hne, h⟩ | ⟨hne, h⟩)
    · exact ⟨fun hh => hne ((eqFold_empty_balance h).mpr hh), Bool.or_eq_true_iff.mpr (Or.inl h)⟩
    · exact ⟨fun hh => hne ((eqFold_empty_balance h).mpr hh), Bool.or_eq_true_iff.mpr (Or.inr h)⟩

theorem involvedBase_eq (cn h a : String) :
    (eqFold h cn || eqFold a cn || containsFold cn h || containsFold cn a ||
      containsFold h cn || containsFold a cn)
    = (eqFold cn h || eqFold cn a || containsFold cn h || containsFold h cn ||
      containsFold cn a || containsFold a cn) := by
  rw [eqFold_comm h cn, eqFold_comm a cn]
  apply Bool.eq_iff_iff.mpr
  simp only [Bool.or_eq_true]
  tauto

theorem tokenClause_eq (cn h a : String) :
    (decide (simplifyClubQuery cn ≠ "") &&
      (containsFold h (simplifyClubQuery cn) || containsFold a (simplifyClubQuery cn)))
    = (containsFold h (simplifyClubQuery cn) || containsFold a (simplifyClubQuery cn)) := by
  by_cases htk : simplifyClubQuery cn = ""
  · rw [htk]
    simp [containsFold_empty_needle]
  · simp [htk]

theorem involvedCheck_eq_spec (cn cid h a hid aid : String) :
    involvedCheck cn cid h a hid aid = involvedSpec cn cid h a hid aid := by
  unfold involvedCheck involvedSpec
  by_cases hempty : cn = "" ∧ cid = ""
  · simp [hempty]
  · rw [if_neg hempty, if_neg hempty]
    by_cases hidc : cid ≠ "" ∧ (eqFold hid cid || eqFold aid cid) = true
    · rw [if_pos hidc, if_pos ((idCond_iff cid hid aid).mp hidc)]
    · rw [if_neg hidc, if_neg (fun hh => hidc ((idCond_iff cid hid aid).mpr hh))]
      by_cases hcn : cn = ""
      · subst hcn
        simp
      · rw [if_pos hcn]
        by_cases hbase : (eqFold h cn || eqFold a cn || containsFold cn h ||
            containsFold cn a || containsFold h cn || containsFold a cn) = true
        · rw [if_pos hbase, if_pos ⟨hcn, by rw [← involvedBase_eq]; exact hbase⟩]
        · rw [if_neg hbase,
            if_neg (fun hh : cn ≠ "" ∧ _ => hbase (by rw [involvedBase_eq]; exact hh.2))]
          rw [tokenClause_eq]
          simp [hcn]

theorem tokenSide_eq (cn s : String) :
    (decide (simplifyClubQuery cn ≠ "") && containsFold s (simplifyClubQuery cn))
    = containsFold s (simplifyClubQuery cn) := by
  by_cases htk : simplifyClubQuery cn = ""
  · rw [htk]
    simp [containsFold_empty_needle]
  · simp [htk]

theorem ite_collapse (b1 b2 : Bool) (x y : String) :
    (if b1 then x else if b2 then x else y) = (if (b1 || b2) then x else y) := by
  cases b1 <;> cases b2 <;> simp

/-- The code's per-side backfill is exactly: a side keeps a non-empty id, and
an id-less side receives the club id iff `sideNameMatches`. -/
theorem backfillID_eq (cn cid side sid : String) :
    backfillID cn cid side sid =
      (if sid = "" then (if sideNameMatches cn side then cid else "") else sid) := by
  unfold backfillID sideNameMatches
  by_cases hs : sid = ""
  · rw [if_pos hs, if_pos hs, ite_collapse, tokenSide_eq, eqFold_comm side cn]
    have hb : (eqFold cn side || containsFold side cn || containsFold cn side ||
          containsFold side (simplifyClubQuery cn))
        = (eqFold cn side || containsFold cn side || containsFold side cn ||
          containsFold side (simplifyClubQuery cn)) := by
      apply Bool.eq_iff_iff.mpr
      simp only [Bool.or_eq_true]
      tauto
    rw [hb]
  · rw [if_neg hs, if_neg hs]

theorem isSome_ite_some {α : Type} (b : Bool) (x : α) :
    (if b then some x else none).isSome = b := by
  cases b <;> simp

/-! ### Claim C1: the Involvement Filter -/

/-- C1: in both adapters a parsed row (a non-header IS row with at least five
cells; a fotbal.cz row with at least two team names) is retained iff the
claim's priority-ordered involvement conditions hold — (a) a resolved side
identifier fold-equals `club_id`, else (b) the club name fold-equals a team
name or substring containment holds in either direction, else (c) the
simplified token of the club name occurs in a team name — and with an empty
club context (no name, no id) every parsed row is retained. -/
theorem involvement_filter_correct
    (logo : String → String → String) (clubType clubName clubID : String)
    (r : ISRow) (fr : FotbalRow)
    (hTh : r.hasTh = false) (hLen : 5 ≤ r.cellTexts.length)
    (hNames : 2 ≤ (fotbalTeamNames fr).length) :
    (processISRow logo clubType clubName clubID r).isSome
      = involvedSpec clubName clubID r.rawHome r.rawAway
          (extractUUIDFromHref r.homeHref) (extractUUIDFromHref r.awayHref)
    ∧ (processFotbalRow logo clubType clubName clubID fr).isSome
      = involvedSpec clubName clubID ((fotbalTeamNames fr).getD 0 "")
          ((fotbalTeamNames fr).getD 1 "")
          ((fotbalImgIDs fr).getD 0 "") ((fotbalImgIDs fr).getD 1 "")
    ∧ (clubName = "" → clubID = "" →
        (processISRow logo clubType clubName clubID r).isSome = true) := by
  have hltIS : ¬ (r.cellTexts.length < 5) := Nat.not_lt.mpr hLen
  have hltF : ¬ ((fotbalTeamNames fr).length < 2) := Nat.not_lt.mpr hNames
  have hIS : (processISRow logo clubType clubName clubID r).isSome
      = involvedSpec clubName clubID r.rawHome r.rawAway
          (extractUUIDFromHref r.homeHref) (extractUUIDFromHref r.awayHref) := by
    rw [← involvedCheck_eq_spec]
    simp only [processISRow, hTh, Bool.false_eq_true, if_false, hltIS, isSome_ite_some]
  refine ⟨hIS, ?_, ?_⟩
  · rw [← involvedCheck_eq_spec]
    simp only [processFotbalRow, hltF, if_false, isSome_ite_some]
  · intro h1 h2
    rw [hIS, h1, h2]
    rfl

/-- C1 witness: the theorem applied at a concrete involved row. -/
theorem involvement_filter_correct_witness :
    ((false : Bool) = false ∧ 5 ≤ (5 : Nat) ∧ 2 ≤ (2 : Nat))
    ∧ (processISRow (fun _ _ => "x") "football" "AC Sparta Praha" ""
        ⟨false, ["d", "Sparta", "Slavia", "1:0", "V"], "", "", "", "", ""⟩).isSome
      = involvedSpec "AC Sparta Praha" ""
          (ISRow.rawHome ⟨false, ["d", "Sparta", "Slavia", "1:0", "V"], "", "", "", "", ""⟩)
          (ISRow.rawAway ⟨false, ["d", "Sparta", "Slavia", "1:0", "V"], "", "", "", "", ""⟩)
          (extractUUIDFromHref "") (extractUUIDFromHref "") :=
  ⟨⟨rfl, by decide, by decide⟩,
    (involvement_filter_correct (fun _ _ => "x") "football" "AC Sparta Praha" ""
      ⟨false, ["d", "Sparta", "Slavia", "1:0", "V"], "", "", "", "", ""⟩
      ⟨["Sparta", "Slavia"], [], "", [], [], ""⟩
      rfl (by decide) (by decide)).1⟩

/-! ### Claim C5: backfill -/

/-- C5: in both adapters, for every retained row each side's emitted id is its
extracted id when non-empty, else the queried `club_id` exactly when the
side's name matches the club by the filter's name/token rules
(`sideNameMatches`), else empty; dropped rows emit nothing. -/
theorem backfill_correct
    (logo : String → String → String) (clubType clubName clubID : String)
    (r : ISRow) (fr : FotbalRow)
    (hTh : r.hasTh = false) (hLen : 5 ≤ r.cellTexts.length)
    (hNames : 2 ≤ (fotbalTeamNames fr).length) :
    ((processISRow logo clubType clubName clubID r).map (fun m => (m.homeID, m.awayID))
      = if involvedSpec clubName clubID r.rawHome r.rawAway
            (extractUUIDFromHref r.homeHref) (extractUUIDFromHref r.awayHref) then
          some ((if extractUUIDFromHref r.homeHref = "" then
                  (if sideNameMatches clubName r.rawHome then clubID else "")
                 else extractUUIDFromHref r.homeHref),
                (if extractUUIDFromHref r.awayHref = "" then
                  (if sideNameMatches clubName r.rawAway then clubID else "")
                 else extractUUIDFromHref r.awayHref))
        else none)
    ∧ ((processFotbalRow logo clubType clubName clubID fr).map (fun m => (m.homeID, m.awayID))
      = if involvedSpec clubName clubID ((fotbalTeamNames fr).getD 0 "")
            ((fotbalTeamNames fr).getD 1 "")
            ((fotbalImgIDs fr).getD 0 "") ((fotbalImgIDs fr).getD 1 "") then
          some ((if (fotbalImgIDs fr).getD 0 "" = "" then
                  (if sideNameMatches clubName ((fotbalTeamNames fr).getD 0 "") then clubID else "")
                 else (fotbalImgIDs fr).getD 0 ""),
                (if (fotbalImgIDs fr).getD 1 "" = "" then
                  (if sideNameMatches clubName ((fotbalTeamNames fr).getD 1 "") then clubID else "")
                 else (fotbalImgIDs fr).getD 1 ""))
        else none) := by
  have hltIS : ¬ (r.cellTexts.length < 5) := Nat.not_lt.mpr hLen
  have hltF : ¬ ((fotbalTeamNames fr).length < 2) := Nat.not_lt.mpr hNames
  constructor
  · rw [← involvedCheck_eq_spec]
    simp only [processISRow, hTh, Bool.false_eq_true, if_false, hltIS, backfillID_eq]
    by_cases hb : involvedCheck clubName clubID r.rawHome r.rawAway
        (extractUUIDFromHref r.homeHref) (extractUUIDFromHref r.awayHref) = true
    · rw [if_pos hb, if_pos hb]
      rfl
    · rw [if_neg hb, if_neg hb]
      rfl
  · rw [← involvedCheck_eq_spec]
    simp only [processFotbalRow, hltF, if_false, backfillID_eq]
    by_cases hb : involvedCheck clubName clubID ((fotbalTeamNames fr).getD 0 "")
        ((fotbalTeamNames fr).getD 1 "")
        ((fotbalImgIDs fr).getD 0 "") ((fotbalImgIDs fr).getD 1 "") = true
    · rw [if_pos hb, if_pos hb]
      rfl
    · rw [if_neg hb, if_neg hb]
      rfl

/-- C5 witness: a retained row with an id-less matching home side receives the
queried club id. -/
theorem backfill_correct_witness :
    ((processISRow (fun _ _ => "x") "football" "AC Sparta Praha" "id-1"
        ⟨false, ["d", "Sparta", "Slavia", "1:0", "V"], "", "", "", "", ""⟩).map
          (fun m => (m.homeID, m.awayID)))
      = some ("id-1", "") :=
  by
    have h := (backfill_correct (fun _ _ => "x") "football" "AC Sparta Praha" "id-1"
      ⟨false, ["d", "Sparta", "Slavia", "1:0", "V"], "", "", "", "", ""⟩
      ⟨["Sparta", "Slavia"], [], "", [], [], ""⟩
      rfl (by decide) (by decide)).1
    rw [h]
    decide

/-! ### Claim C8: parenthesis truncation -/

/-- C8 counterexample: the public-page (fotbal.cz) adapter does NOT truncate a
team name at an opening parenthesis — a row whose span text is
`"Sparta Praha (B)"` is emitted with that full name, not the prefix. -/
theorem paren_truncation_counterexample :
    ((processFotbalRow (fun _ _ => "x") "football" "" ""
        ⟨["Sparta Praha (B)", "Slavia"], [], "", [], [], ""⟩).map Match.home)
      = some "Sparta Praha (B)"
    ∧ ("Sparta Praha (B)" : String) ≠ "Sparta Praha" := by
  constructor
  · decide
  · decide

/-- C8 amended: only the internal-system (IS) adapter truncates each extracted
team name at an opening parenthesis (then trims); the public-page adapter uses
the trimmed span text unchanged, parenthetical suffix included. -/
theorem paren_truncation_amended
    (logo : String → String → String) (clubType clubName clubID : String)
    (r : ISRow) (fr : FotbalRow)
    (hTh : r.hasTh = false) (hLen : 5 ≤ r.cellTexts.length)
    (hNames : 2 ≤ (fotbalTeamNames fr).length) :
    ((processISRow logo clubType clubName clubID r).map Match.home
      = if involvedSpec clubName clubID r.rawHome r.rawAway
            (extractUUIDFromHref r.homeHref) (extractUUIDFromHref r.awayHref) then
          some (truncParen (trimS (r.cellTexts.getD 1 ""))) else none)
    ∧ ((processISRow logo clubType clubName clubID r).map Match.away
      = if involvedSpec clubName clubID r.rawHome r.rawAway
            (extractUUIDFromHref r.homeHref) (extractUUIDFromHref r.awayHref) then
          some (truncParen (trimS (r.cellTexts.getD 2 ""))) else none)
    ∧ ((processFotbalRow logo clubType clubName clubID fr).map Match.home
      = if involvedSpec clubName clubID ((fotbalTeamNames fr).getD 0 "")
            ((fotbalTeamNames fr).getD 1 "")
            ((fotbalImgIDs fr).getD 0 "") ((fotbalImgIDs fr).getD 1 "") then
          some (((fr.spanTexts.map trimS).filter (fun t => t ≠ "")).getD 0 "") else none)
    ∧ truncParen "Sparta Praha (B)" = "Sparta Praha" := by
  have hltIS : ¬ (r.cellTexts.length < 5) := Nat.not_lt.mpr hLen
  have hltF : ¬ ((fotbalTeamNames fr).length < 2) := Nat.not_lt.mpr hNames
  refine ⟨?_, ?_, ?_, by decide⟩
  · rw [← involvedCheck_eq_spec]
    simp only [processISRow, hTh, Bool.false_eq_true, if_false, hltIS]
    by_cases hb : involvedCheck clubName clubID r.rawHome r.rawAway
        (extractUUIDFromHref r.homeHref) (extractUUIDFromHref r.awayHref) = true
    · rw [if_pos hb, if_pos hb]
      rfl
    · rw [if_neg hb, if_neg hb]
      rfl
  · rw [← involvedCheck_eq_spec]
    simp only [processISRow, hTh, Bool.false_eq_true, if_false, hltIS]
    by_cases hb : involvedCheck clubName clubID r.rawHome r.rawAway
        (extractUUIDFromHref r.homeHref) (extractUUIDFromHref r.awayHref) = true
    · rw [if_pos hb, if_pos hb]
      rfl
    · rw [if_neg hb, if_neg hb]
      rfl
  · rw [← involvedCheck_eq_spec]
    simp only [processFotbalRow, hltF, if_false]
    by_cases hb : involvedCheck clubName clubID ((fotbalTeamNames fr).getD 0 "")
        ((fotbalTeamNames fr).getD 1 "")
        ((fotbalImgIDs fr).getD 0 "") ((fotbalImgIDs fr).getD 1 "") = true
    · rw [if_pos hb, if_pos hb]
      rfl
    · rw [if_neg hb, if_neg hb]
      rfl

/-- C8 amended witness: the IS adapter applied to a row with a
parenthesized team cell emits the truncated name. -/
theorem paren_truncation_amended_witness :
    ((processISRow (fun _ _ => "x") "football" "" ""
        ⟨false, ["d", "Sparta Praha (B)", "Slavia", "1:0", "V"], "", "", "", "", ""⟩).map
      Match.home) = some "Sparta Praha" := by
  have h := (paren_truncation_amended (fun _ _ => "x") "football" "" ""
    ⟨false, ["d", "Sparta Praha (B)", "Slavia", "1:0", "V"], "", "", "", "", ""⟩
    ⟨["Sparta", "Slavia"], [], "", [], [], ""⟩
    rfl (by decide) (by decide)).1
  rw [h]
  decide

/-! ### Claim C7: token simplification -/

theorem simplifyScan_eq_find :
    ∀ l : List (List Char),
      simplifyScan l = (l.map (fun p => lowerL (trimCutset p))).find? scanPred
  | [] => rfl
  | p :: rest => by
    rw [List.map_cons]
    by_cases hstop : stopTokens.contains (String.mk (lowerL (trimCutset p))) = true
    · have hpred : scanPred (lowerL (trimCutset p)) = false := by
        unfold scanPred
        rw [hstop]
        simp
      rw [List.find?_cons_of_neg _ (by rw [hpred]; simp)]
      have hstep : simplifyScan (p :: rest) = simplifyScan rest := by
        simp only [simplifyScan]
        rw [if_pos hstop]
      rw [hstep, simplifyScan_eq_find rest]
    · have hstop' : stopTokens.contains (String.mk (lowerL (trimCutset p))) = false := by
        cases h : stopTokens.contains (String.mk (lowerL (trimCutset p)))
        · rfl
        · exact absurd h hstop
      by_cases hq : 3 ≤ (lowerL (trimCutset p)).length ∧
          (lowerL (trimCutset p)).any letterClass = true
      · have hpred : scanPred (lowerL (trimCutset p)) = true := by
          unfold scanPred
          rw [hstop']
          simp [hq.1, hq.2]
        rw [List.find?_cons_of_pos _ hpred]
        simp only [simplifyScan]
        rw [if_neg hstop, if_pos hq]
      · have hpred : scanPred (lowerL (trimCutset p)) = false := by
          unfold scanPred
          rw [hstop']
          rcases not_and_or.mp hq with h | h
          · simp [Nat.lt_of_not_le h]
          · simp [h]
        rw [List.find?_cons_of_neg _ (by rw [hpred]; simp)]
        have hstep : simplifyScan (p :: rest) = simplifyScan rest := by
          simp only [simplifyScan]
          rw [if_neg hstop, if_neg hq]
        rw [hstep, simplifyScan_eq_find rest]

/-- C7: `simplifyClubQuery` is exactly the specification's description — split
on whitespace, scan from the last word backward, strip surrounding
punctuation, skip lower-cased legal-entity stopwords, return the first
remaining word of rune length at least 3 containing a letter of the adapter's
letter class, else fall back to the sanitized lower-cased last word — and the
two stated examples hold. -/
theorem simplify_club_query_correct :
    (∀ name, simplifyClubQuery name = simplifySpec name)
    ∧ simplifyClubQuery "TJ Sokol Krnov z.s." = "krnov"
    ∧ simplifyClubQuery "FC Viktoria" = "viktoria" := by
  refine ⟨?_, by decide, by decide⟩
  intro name
  unfold simplifyClubQuery simplifySpec
  by_cases hs : (goTrimSpaceL name.data).isEmpty = true
  · have hnil : goTrimSpaceL name.data = [] := by
      cases hll : goTrimSpaceL name.data with
      | nil => rfl
      | cons x xs => rw [hll] at hs; cases hs
    rw [hnil]
    rfl
  · rw [if_neg hs]
    simp only [simplifyScan_eq_find]

/-! ### Claim C6: identifier extraction -/

theorem splitSlash_ne_nil (s : List Char) : splitSlash s ≠ [] := by
  cases s with
  | nil => simp [splitSlash]
  | cons c cs =>
    unfold splitSlash
    split
    · simp
    · split
      · simp
      · simp

theorem splitSlash_single : ∀ {cs : List Char} {p : List Char},
    splitSlash cs = [p] → p = cs := by
  intro cs
  induction cs with
  | nil =>
    intro p h
    simp only [splitSlash] at h
    exact (List.cons.injEq _ _ _ _ ▸ h).1.symm ▸ rfl
  | cons c cs ih =>
    intro p h
    unfold splitSlash at h
    by_cases hc : (c == Char.ofNat 47) = true
    · rw [if_pos hc] at h
      have : splitSlash cs = [] := (List.cons.injEq _ _ _ _ ▸ h).2
      exact absurd this (splitSlash_ne_nil cs)
    · rw [if_neg hc] at h
      cases hsp : splitSlash cs with
      | nil => exact absurd hsp (splitSlash_ne_nil cs)
      | cons q qs =>
        rw [hsp] at h
        have h1 : p = c :: q := ((List.cons.injEq _ _ _ _ ▸ h).1).symm
        have h2 : qs = [] := (List.cons.injEq _ _ _ _ ▸ h).2
        subst h2
        have := ih (hsp.trans rfl)
        rw [h1, this]

theorem lastTok_splitSlash_suffix (s : List Char) :
    ∃ a, a ++ lastTok (splitSlash s) = s := by
  induction s with
  | nil => exact ⟨[], rfl⟩
  | cons c cs ih =>
    unfold splitSlash
    by_cases hc : (c == Char.ofNat 47) = true
    · rw [if_pos hc]
      cases hsp : splitSlash cs with
      | nil => exact absurd hsp (splitSlash_ne_nil cs)
      | cons q qs =>
        obtain ⟨a, ha⟩ := ih
        rw [hsp] at ha
        refine ⟨c :: a, ?_⟩
        have : lastTok ([] :: q :: qs) = lastTok (q :: qs) := rfl
        rw [this, List.cons_append, ha]
    · rw [if_neg hc]
      cases hsp : splitSlash cs with
      | nil => exact absurd hsp (splitSlash_ne_nil cs)
      | cons q qs =>
        cases qs with
        | nil =>
          have hq : q = cs := splitSlash_single hsp
          refine ⟨[], ?_⟩
          simp [lastTok, hq]
        | cons q2 qs2 =>
          obtain ⟨a, ha⟩ := ih
          rw [hsp] at ha
          refine ⟨c :: a, ?_⟩
          have h1 : lastTok ((c :: q) :: q2 :: qs2) = lastTok (q2 :: qs2) := rfl
          have h2 : lastTok (q :: q2 :: qs2) = lastTok (q2 :: qs2) := rfl
          rw [h1, List.cons_append]
          rw [h2] at ha
          rw [ha]

theorem findUUID_append_none : ∀ {a b : List Char},
    findUUID (a ++ b) = none → findUUID b = none := by
  intro a
  induction a with
  | nil => intro b h; simpa using h
  | cons x xs ih =>
    intro b h
    rw [List.cons_append] at h
    unfold findUUID at h
    by_cases hu : (uuidLead (x :: (xs ++ b))).isSome = true
    · rw [if_pos hu] at h
      cases h
    · rw [if_neg hu] at h
      exact ih h

theorem findUUID_of_uuidExact {s : List Char} (h : uuidExact s = true) :
    (findUUID s).isSome = true := by
  have hlead : uuidLead s = some [] := eq_of_beq h
  cases s with
  | nil =>
    simp [uuidLead, hexRun] at hlead
  | cons c cs =>
    unfold findUUID
    rw [if_pos (by rw [hlead]; rfl)]
    rfl

/-- C6: `extractUUIDFromHref` equals the specification's two-pass description
— the first substring of the exact 8-4-4-4-12 hex shape if one exists, else
the final path segment exactly when that segment alone is of the shape, else
empty — and the two stated examples hold. -/
theorem extract_uuid_correct :
    (∀ href, extractUUIDFromHref href = extractUUIDSpec href)
    ∧ extractUUIDFromHref
        "https://www.fotbal.cz/club/club/3fa85f64-5717-4562-b3fc-2c963f66afa6"
      = "3fa85f64-5717-4562-b3fc-2c963f66afa6"
    ∧ extractUUIDFromHref "no-id-here" = "" := by
  refine ⟨?_, by decide, by decide⟩
  intro href
  by_cases hh : trimS href = ""
  · unfold extractUUIDFromHref extractUUIDSpec
    rw [if_pos hh, hh]
    decide
  · have hL : extractUUIDFromHref href =
        (match findUUID (trimS href).data with
         | some u => String.mk u
         | none =>
            if (findUUID (lastTok (splitSlash (trimS href).data))).isSome = true
            then String.mk (lastTok (splitSlash (trimS href).data)) else "") := by
      unfold extractUUIDFromHref
      rw [if_neg hh]
    have hR : extractUUIDSpec href =
        (match findUUID (trimS href).data with
         | some u => String.mk u
         | none =>
            if uuidExact (lastTok (splitSlash (trimS href).data)) = true
            then String.mk (lastTok (splitSlash (trimS href).data)) else "") := rfl
    rw [hL, hR]
    cases hfu : findUUID (trimS href).data with
    | some u => rfl
    | none =>
      obtain ⟨a, ha⟩ := lastTok_splitSlash_suffix (trimS href).data
      have hnone : findUUID (lastTok (splitSlash (trimS href).data)) = none :=
        findUUID_append_none (ha.symm ▸ hfu)
      have hnex : ¬ uuidExact (lastTok (splitSlash (trimS href).data)) = true := by
        intro hex
        have := findUUID_of_uuidExact hex
        rw [hnone] at this
        cases this
      rw [if_neg (by rw [hnone]; simp), if_neg hnex]

/-! ### Claim C3: score normalization -/

theorem isEmpty_false_of_ne_nil {α : Type} {l : List α} (h : l ≠ []) :
    l.isEmpty = false := by
  cases l with
  | nil => exact absurd rfl h
  | cons x xs => rfl

theorem digit_not_reSpace {c : Char} (h : isAsciiDigit c = true) :
    reSpace c = false := by
  unfold isAsciiDigit at h
  unfold reSpace
  simp only [decide_eq_true_eq] at h
  simp only [decide_eq_false_iff_not]
  omega

theorem digit_not_goSpace {c : Char} (h : isAsciiDigit c = true) :
    goIsSpace c = false := by
  unfold isAsciiDigit at h
  unfold goIsSpace
  simp only [decide_eq_true_eq] at h
  simp only [decide_eq_false_iff_not]
  omega

theorem trim_no_space {l : List Char} (hall : ∀ c ∈ l, goIsSpace c = false) :
    goTrimSpaceL l = l := by
  unfold goTrimSpaceL
  have h1 : l.dropWhile goIsSpace = l := by
    cases l with
    | nil => rfl
    | cons x xs => exact List.dropWhile_cons_of_neg (by simp [hall x (by simp)])
  rw [h1]
  have h2 : l.reverse.dropWhile goIsSpace = l.reverse := by
    cases hr : l.reverse with
    | nil => rfl
    | cons x xs =>
      have hx : x ∈ l := by
        rw [← List.mem_reverse, hr]
        simp
      rw [List.dropWhile_cons_of_neg (by simp [hall x hx])]
  rw [h2, List.reverse_reverse]

theorem dropWhile_head_not {α : Type} {p : α → Bool} :
    ∀ {l : List α} {x : α} {xs : List α}, l.dropWhile p = x :: xs → p x = false := by
  intro l
  induction l with
  | nil => intro x xs h; cases h
  | cons c cs ih =>
    intro x xs h
    rw [List.dropWhile_cons] at h
    by_cases hc : p c = true
    · rw [if_pos hc] at h
      exact ih h
    · rw [if_neg hc] at h
      injection h with h1 h2
      cases hpc : p c with
      | false => exact h1 ▸ hpc
      | true => exact absurd hpc hc

theorem goTrimSpaceL_idem (l : List Char) :
    goTrimSpaceL (goTrimSpaceL l) = goTrimSpaceL l := by
  have hdef : ∀ m : List Char,
      goTrimSpaceL m = List.rdropWhile goIsSpace (m.dropWhile goIsSpace) := fun m => rfl
  rw [hdef, hdef l]
  have hself : (List.rdropWhile goIsSpace (l.dropWhile goIsSpace)).dropWhile goIsSpace
      = List.rdropWhile goIsSpace (l.dropWhile goIsSpace) := by
    cases hu : List.rdropWhile goIsSpace (l.dropWhile goIsSpace) with
    | nil => rfl
    | cons x xs =>
      have hpre : List.rdropWhile goIsSpace (l.dropWhile goIsSpace) <+: l.dropWhile goIsSpace :=
        List.rdropWhile_prefix _ _
      rw [hu] at hpre
      obtain ⟨t, ht⟩ := hpre
      have hdw : l.dropWhile goIsSpace = x :: (xs ++ t) := by
        rw [← ht]
        simp
      have hx : goIsSpace x = false := dropWhile_head_not hdw
      exact List.dropWhile_cons_of_neg (by simp [hx])
  rw [hself, List.rdropWhile_idempotent]

theorem scoreGroupsAt_digits {s a b : List Char}
    (h : scoreGroupsAt s = some (a, b)) :
    a ≠ [] ∧ b ≠ [] ∧ (∀ c ∈ a, isAsciiDigit c = true) ∧
      (∀ c ∈ b, isAsciiDigit c = true) := by
  unfold scoreGroupsAt at h
  by_cases h1 : (s.takeWhile isAsciiDigit).isEmpty = true
  · rw [if_pos h1] at h
    cases h
  · rw [if_neg h1] at h
    split at h
    · split at h
      · dsimp only at h
        split at h
        · cases h
        · next h2 =>
          have hab := Option.some.inj h
          rw [Prod.mk.injEq] at hab
          obtain ⟨haa, hbb⟩ := hab
          refine ⟨?_, ?_, ?_, ?_⟩
          · intro he
            exact h1 (by rw [haa, he]; rfl)
          · intro he
            exact h2 (by rw [hbb, he]; rfl)
          · intro c2 hc2
            exact List.mem_takeWhile_imp (haa.symm ▸ hc2)
          · intro c2 hc2
            exact List.mem_takeWhile_imp (hbb.symm ▸ hc2)
      · cases h
    · cases h

theorem findScore_digits : ∀ {s a b : List Char}, findScore s = some (a, b) →
    a ≠ [] ∧ b ≠ [] ∧ (∀ c ∈ a, isAsciiDigit c = true) ∧
      (∀ c ∈ b, isAsciiDigit c = true) := by
  intro s
  induction s with
  | nil => intro a b h; cases h
  | cons c cs ih =>
    intro a b h
    unfold findScore at h
    cases hm : scoreGroupsAt (c :: cs) with
    | some r =>
      rw [hm] at h
      have : r = (a, b) := Option.some.inj h
      exact scoreGroupsAt_digits (this ▸ hm)
    | none =>
      rw [hm] at h
      exact ih h

theorem findScore_canonical {a b : List Char} (ha : a ≠ []) (hb : b ≠ [])
    (hda : ∀ c ∈ a, isAsciiDigit c = true) (hdb : ∀ c ∈ b, isAsciiDigit c = true) :
    findScore (a ++ Char.ofNat 58 :: b) = some (a, b) := by
  have hcd : isAsciiDigit (Char.ofNat 58) = false := by decide
  have hcs : reSpace (Char.ofNat 58) = false := by decide
  have hgroups : scoreGroupsAt (a ++ Char.ofNat 58 :: b) = some (a, b) := by
    unfold scoreGroupsAt
    have htake : (a ++ Char.ofNat 58 :: b).takeWhile isAsciiDigit = a := by
      rw [List.takeWhile_append_of_pos hda, List.takeWhile_cons_of_neg (by simp [hcd])]
      simp
    have hdrop : (a ++ Char.ofNat 58 :: b).dropWhile isAsciiDigit = Char.ofNat 58 :: b := by
      rw [List.dropWhile_append_of_pos hda, List.dropWhile_cons_of_neg (by simp [hcd])]
    have hbs : b.dropWhile reSpace = b := by
      cases b with
      | nil => rfl
      | cons x xs =>
        exact List.dropWhile_cons_of_neg
          (by simp [digit_not_reSpace (hdb x (by simp))])
    have hbt : b.takeWhile isAsciiDigit = b := List.takeWhile_eq_self_iff.mpr hdb
    rw [htake, hdrop, if_neg (by rw [isEmpty_false_of_ne_nil ha]; simp)]
    rw [List.dropWhile_cons_of_neg (by simp [hcs])]
    split
    · next c rest heq =>
      injection heq with hx1 hx2
      subst hx1
      subst hx2
      rw [if_pos (by decide), hbs, hbt,
        if_neg (by rw [isEmpty_false_of_ne_nil hb]; simp)]
    · next heq => cases heq
  cases a with
  | nil => exact absurd rfl ha
  | cons c cs =>
    rw [List.cons_append] at hgroups ⊢
    unfold findScore
    rw [hgroups]

/-- C3 counterexample: the fotbal.cz adapter does not emit the empty string on
an unparsable score — the raw trimmed text is kept. -/
theorem score_total_counterexample :
    ((processFotbalRow (fun _ _ => "x") "football" "" ""
        ⟨["Sparta", "Slavia"], [], "abc", [], [], ""⟩).map Match.score) = some "abc"
    ∧ ("abc" : String) ≠ "" := by
  constructor
  · decide
  · decide

/-- C3 amended: on an input whose trimmed text contains the two-integer-groups
pattern, all three score normalizations emit exactly `<int1>:<int2>`; on an
input without the pattern the IS adapter emits the empty string while the
fotbal.cz adapter and the standings extractor keep the trimmed raw text; all
three normalizations are idempotent. -/
theorem score_normalization_amended :
    (∀ s a b, findScore (goTrimSpaceL s.data) = some (a, b) →
      normalizeScoreIS s = String.mk (a ++ Char.ofNat 58 :: b)
      ∧ normalizeScoreKeep s = String.mk (a ++ Char.ofNat 58 :: b))
    ∧ (∀ s, findScore (goTrimSpaceL s.data) = none →
      normalizeScoreIS s = "" ∧ normalizeScoreKeep s = String.mk (goTrimSpaceL s.data))
    ∧ (∀ s, normalizeScoreIS (normalizeScoreIS s) = normalizeScoreIS s)
    ∧ (∀ s, normalizeScoreKeep (normalizeScoreKeep s) = normalizeScoreKeep s) := by
  have hout : ∀ a b : List Char, a ≠ [] → b ≠ [] →
      (∀ c ∈ a, isAsciiDigit c = true) → (∀ c ∈ b, isAsciiDigit c = true) →
      findScore (goTrimSpaceL (String.mk (a ++ Char.ofNat 58 :: b)).data) = some (a, b) := by
    intro a b ha hb hda hdb
    have hns : ∀ c ∈ a ++ Char.ofNat 58 :: b, goIsSpace c = false := by
      intro c hc
      rcases List.mem_append.mp hc with h | h
      · exact digit_not_goSpace (hda c h)
      · rcases List.mem_cons.mp h with h | h
        · subst h; decide
        · exact digit_not_goSpace (hdb c h)
    show findScore (goTrimSpaceL (a ++ Char.ofNat 58 :: b)) = some (a, b)
    rw [trim_no_space hns]
    exact findScore_canonical ha hb hda hdb
  refine ⟨?_, ?_, ?_, ?_⟩
  · intro s a b h
    constructor
    · unfold normalizeScoreIS
      rw [h]
    · unfold normalizeScoreKeep
      rw [h]
  · intro s h
    constructor
    · unfold normalizeScoreIS
      rw [h]
    · unfold normalizeScoreKeep
      rw [h]
  · intro s
    cases hf : findScore (goTrimSpaceL s.data) with
    | none =>
      have h1 : normalizeScoreIS s = "" := by
        unfold normalizeScoreIS
        rw [hf]
      rw [h1]
      rfl
    | some r =>
      obtain ⟨a, b⟩ := r
      have h1 : normalizeScoreIS s = String.mk (a ++ Char.ofNat 58 :: b) := by
        unfold normalizeScoreIS
        rw [hf]
      obtain ⟨ha, hb, hda, hdb⟩ := findScore_digits hf
      rw [h1]
      unfold normalizeScoreIS
      rw [hout a b ha hb hda hdb]
  · intro s
    cases hf : findScore (goTrimSpaceL s.data) with
    | none =>
      have h1 : normalizeScoreKeep s = String.mk (goTrimSpaceL s.data) := by
        unfold normalizeScoreKeep
        rw [hf]
      rw [h1]
      unfold normalizeScoreKeep
      show (match findScore (goTrimSpaceL (goTrimSpaceL s.data)) with
        | some (a, b) => String.mk (a ++ Char.ofNat 58 :: b)
        | none => String.mk (goTrimSpaceL (goTrimSpaceL s.data))) = _
      rw [goTrimSpaceL_idem, hf]
    | some r =>
      obtain ⟨a, b⟩ := r
      have h1 : normalizeScoreKeep s = String.mk (a ++ Char.ofNat 58 :: b) := by
        unfold normalizeScoreKeep
        rw [hf]
      obtain ⟨ha, hb, hda, hdb⟩ := findScore_digits hf
      rw [h1]
      unfold normalizeScoreKeep
      rw [hout a b ha hb hda hdb]

/-- C3 amended witness: the amended theorem applied at concrete inputs. -/
theorem score_normalization_amended_witness :
    (findScore (goTrimSpaceL ("abc" : String).data) = none
      ∧ normalizeScoreIS "abc" = ""
      ∧ normalizeScoreKeep "abc" = String.mk (goTrimSpaceL ("abc" : String).data))
    ∧ (findScore (goTrimSpaceL (" 5 : 10 " : String).data)
        = some ("5".data, "10".data)
      ∧ normalizeScoreIS " 5 : 10 "
        = String.mk ("5".data ++ Char.ofNat 58 :: "10".data)) :=
  ⟨⟨by decide, (score_normalization_amended.2.1 "abc" (by decide)).1,
    (score_normalization_amended.2.1 "abc" (by decide)).2⟩,
   ⟨by decide, (score_normalization_amended.1 " 5 : 10 " "5".data "10".data (by decide)).1⟩⟩

/-! ### Claim C2: reconciliation -/

/-- C2: in the `getClubInfo` enrichment loop, every competition's final match
list is the IS adapter's entire output when that output is non-empty, else the
fotbal.cz adapter's output; in particular adapter outputs of sizes (A=5, B=0)
yield A's 5 matches and (A=5, B=1) yield B's single match. -/
theorem reconciliation_prefers_is :
    (∀ (logo : String → String → String) (clubType clubName clubID : String)
      (fetchFotbal : Competition → FetchResult (List FotbalRow))
      (fetchIS : Competition → FetchResult (List ISRow))
      (comps : List Competition) (i : Nat),
      ((enrichMatches logo clubType clubName clubID fetchFotbal fetchIS comps)[i]?).map
          Competition.matches'
        = (comps[i]?).map (fun comp =>
            if (parseCompetitionMatchesFromIS logo clubType clubName clubID
                (fetchIS comp)).length > 0 then
              parseCompetitionMatchesFromIS logo clubType clubName clubID (fetchIS comp)
            else
              parseCompetitionMatchesFromFotbal logo comp.matchesLink clubType clubName
                clubID (fetchFotbal comp)))
    ∧ ((enrichMatches (fun _ _ => "x") "football" "" ""
          (fun _ => .response 200 (some [⟨["A", "B"], [], "", [], [], ""⟩,
            ⟨["A", "B"], [], "", [], [], ""⟩, ⟨["A", "B"], [], "", [], [], ""⟩,
            ⟨["A", "B"], [], "", [], [], ""⟩, ⟨["A", "B"], [], "", [], [], ""⟩]))
          (fun _ => .response 200 (some []))
          [⟨"c1", "K", "N", "16", "link", [], none⟩])[0]?).map
        (fun c => c.matches'.length) = some 5
    ∧ ((enrichMatches (fun _ _ => "x") "football" "" ""
          (fun _ => .response 200 (some [⟨["A", "B"], [], "", [], [], ""⟩,
            ⟨["A", "B"], [], "", [], [], ""⟩, ⟨["A", "B"], [], "", [], [], ""⟩,
            ⟨["A", "B"], [], "", [], [], ""⟩, ⟨["A", "B"], [], "", [], [], ""⟩]))
          (fun _ => .response 200 (some [⟨false, ["d", "X", "Y", "1:0", "V"], "", "", "", "", ""⟩]))
          [⟨"c1", "K", "N", "16", "link", [], none⟩])[0]?).map
        (fun c => c.matches'.length) = some 1 := by
  refine ⟨?_, by decide, by decide⟩
  intro logo clubType clubName clubID fetchFotbal fetchIS comps i
  unfold enrichMatches
  rw [List.getElem?_map]
  cases comps[i]? with
  | none => rfl
  | some c => rfl

/-! ### Claim C9: error isolation -/

/-- C9: per-competition enrichment failures are isolated — a transport error,
a non-200 status or an unreadable/unparsable body makes either adapter return
the empty list, and in the standings loop such a failure leaves the
competition unchanged (without the table) while every competition is still
processed (the enrichment is a per-element map); only the primary club-page
fetch failure surfaces as an error status (500 for transport/parse failures,
the upstream status otherwise). -/
theorem error_isolation
    (logo : String → String → String) (clubID : String) (hID : clubID ≠ "")
    (clubType : String) (hType : clubType = "football" ∨ clubType = "futsal")
    (page : ClubPageDoc)
    (fetchTable : Competition → FetchResult (List TableRowRaw))
    (code : Nat) (hCode : code ≠ 200)
    (pageURL clubName : String) (fBody : Option (List FotbalRow))
    (isBody : Option (List ISRow)) (tBody : Option (List TableRowRaw))
    (comp : Competition) :
    parseCompetitionMatchesFromFotbal logo pageURL clubType clubName clubID
        .transportError = []
    ∧ parseCompetitionMatchesFromFotbal logo pageURL clubType clubName clubID
        (.response code fBody) = []
    ∧ parseCompetitionMatchesFromFotbal logo pageURL clubType clubName clubID
        (.response 200 none) = []
    ∧ parseCompetitionMatchesFromIS logo clubType clubName clubID .transportError = []
    ∧ parseCompetitionMatchesFromIS logo clubType clubName clubID
        (.response code isBody) = []
    ∧ parseCompetitionMatchesFromIS logo clubType clubName clubID
        (.response 200 none) = []
    ∧ (fetchTable comp = .transportError → enrichTable logo fetchTable comp = comp)
    ∧ (fetchTable comp = .response code tBody → enrichTable logo fetchTable comp = comp)
    ∧ (fetchTable comp = .response 200 none → enrichTable logo fetchTable comp = comp)
    ∧ getClubTables logo clubType clubID (.response 200 (some page)) fetchTable
        = .ok { name := page.clubName, clubID := clubID, clubType := clubType,
                clubInternalID := page.clubInternalID, url := page.clubURL,
                logoURL := page.logoURL, address := page.address,
                category := page.category,
                competitions := page.competitions.map (enrichTable logo fetchTable) }
    ∧ getClubTables logo clubType clubID .transportError fetchTable = .error 500
    ∧ getClubTables logo clubType clubID (.response code (some page)) fetchTable
        = .error code := by
  have hTy : ¬ (clubType ≠ "football" ∧ clubType ≠ "futsal") := by
    rcases hType with h | h
    · exact fun hh => hh.1 h
    · exact fun hh => hh.2 h
  have hFotbal : ∀ fr : FetchResult (List FotbalRow),
      (fr = .transportError ∨ fr = .response code fBody ∨ fr = .response 200 none) →
      parseCompetitionMatchesFromFotbal logo pageURL clubType clubName clubID fr = [] := by
    intro fr hfr
    unfold parseCompetitionMatchesFromFotbal
    by_cases hp : trimS pageURL = ""
    · rw [if_pos hp]
    · rw [if_neg hp]
      rcases hfr with h | h | h <;> subst h
      · rfl
      · simp [hCode]
      · rfl
  have hIS : ∀ fr : FetchResult (List ISRow),
      (fr = .transportError ∨ fr = .response code isBody ∨ fr = .response 200 none) →
      parseCompetitionMatchesFromIS logo clubType clubName clubID fr = [] := by
    intro fr hfr
    unfold parseCompetitionMatchesFromIS
    rcases hfr with h | h | h <;> subst h
    · rfl
    · simp [hCode]
    · rfl
  refine ⟨hFotbal _ (Or.inl rfl), hFotbal _ (Or.inr (Or.inl rfl)),
    hFotbal _ (Or.inr (Or.inr rfl)), hIS _ (Or.inl rfl), hIS _ (Or.inr (Or.inl rfl)),
    hIS _ (Or.inr (Or.inr rfl)), ?_, ?_, ?_, ?_, ?_, ?_⟩
  · intro h
    unfold enrichTable
    rw [h]
  · intro h
    unfold enrichTable
    rw [h]
    simp [hCode]
  · intro h
    unfold enrichTable
    rw [h]
    rfl
  · unfold getClubTables
    rw [if_neg hID, if_neg hTy]
    rfl
  · unfold getClubTables
    rw [if_neg hID, if_neg hTy]
  · unfold getClubTables
    rw [if_neg hID, if_neg hTy]
    simp [hCode]

/-- C9 witness: the theorem applied at concrete inputs — a 503 standings fetch
leaves the competition unchanged and a 503 primary fetch surfaces as 503. -/
theorem error_isolation_witness :
    (("x" : String) ≠ "" ∧ ("football" = "football" ∨ ("football" : String) = "futsal")
      ∧ (503 : Nat) ≠ 200)
    ∧ enrichTable (fun _ _ => "x") (fun _ => .response 503 none)
        ⟨"c1", "K", "N", "16", "link", [], none⟩
      = ⟨"c1", "K", "N", "16", "link", [], none⟩
    ∧ getClubTables (fun _ _ => "x") "football" "x" .transportError
        (fun _ => .response 503 none) = .error 500 := by
  refine ⟨⟨by decide, Or.inl rfl, by decide⟩, ?_, ?_⟩
  · exact (error_isolation (fun _ _ => "x") "x" (by decide) "football" (Or.inl rfl)
      ⟨"", "", "", "", "", "", []⟩ (fun _ => .response 503 none) 503 (by decide)
      "" "" none none none ⟨"c1", "K", "N", "16", "link", [], none⟩).2.2.2.2.2.2.2.1 rfl
  · exact (error_isolation (fun _ _ => "x") "x" (by decide) "football" (Or.inl rfl)
      ⟨"", "", "", "", "", "", []⟩ (fun _ => .response 503 none) 503 (by decide)
      "" "" none none none ⟨"c1", "K", "N", "16", "link", [], none⟩).2.2.2.2.2.2.2.2.2.2.1

/-! ### Claims C4 and C10: logo resolution -/

theorem cacheGet_cacheSet (cache : LogoCache) (k v : String) :
    cacheGet (cacheSet cache k v) k = some v := by
  unfold cacheGet cacheSet
  rw [List.find?_cons_of_pos _ (by simp)]
  rfl

/-- Outcome characterization of `getLogoBySearch`: empty key (no lookup), a
cache hit (no lookup), a successful resolution whose outcome is cached (one
or two lookups), or an uncached empty result when the full-name fallback
itself fails (two lookups). -/
theorem getLogoBySearch_char (search : SearchFn) (cache : LogoCache) (name : String) :
    (lowerS (trimS name) = "" ∧ getLogoBySearch search cache name = ("", cache, 0))
    ∨ (∃ v, cacheGet cache (lowerS (trimS name)) = some v
        ∧ getLogoBySearch search cache name = (v, cache, 0))
    ∨ (cacheGet cache (lowerS (trimS name)) = none
        ∧ ∃ best n, 1 ≤ n ∧ n ≤ 2 ∧ getLogoBySearch search cache name
            = (best, cacheSet cache (lowerS (trimS name)) best, n))
    ∨ (cacheGet cache (lowerS (trimS name)) = none ∧ search name = none
        ∧ getLogoBySearch search cache name = ("", cache, 2)) := by
  unfold getLogoBySearch
  split
  · next hk => exact Or.inl ⟨hk, rfl⟩
  · next hk =>
    split
    · next v hv => exact Or.inr (Or.inl ⟨v, hv, rfl⟩)
    · next hv =>
      split
      · next res hs1 =>
        split
        · next hres =>
          exact Or.inr (Or.inr (Or.inl ⟨hv, _, 1, by omega, by omega, rfl⟩))
        · next hres =>
          split
          · next hs2 => exact Or.inr (Or.inr (Or.inr ⟨hv, hs2, rfl⟩))
          · next res2 hs2 =>
            exact Or.inr (Or.inr (Or.inl ⟨hv, _, 2, by omega, by omega, rfl⟩))
      · next hs1 =>
        split
        · next hs2 => exact Or.inr (Or.inr (Or.inr ⟨hv, hs2, rfl⟩))
        · next res2 hs2 =>
          exact Or.inr (Or.inr (Or.inl ⟨hv, _, 2, by omega, by omega, rfl⟩))

/-- In the name-search branch, `getLogo` returns the search result's cache and
call count, and its URL is the search result or the placeholder. -/
theorem getLogo_search_branch (search : SearchFn) (cache : LogoCache) (tn tid : String)
    (hmark : isNonTeamName (lowerS (trimS tn)) = false) (hid : trimS tid = "") :
    (getLogo search cache tn tid).2 = (getLogoBySearch search cache tn).2
    ∧ ((getLogo search cache tn tid).1 = (getLogoBySearch search cache tn).1
      ∨ (getLogo search cache tn tid).1 = placeholderURL) := by
  unfold getLogo
  rw [if_neg (by rw [hmark]; simp), if_neg (by rw [hid]; simp)]
  by_cases h1 : (getLogoBySearch search cache tn).1 ≠ ""
  · rw [if_pos h1]
    exact ⟨rfl, Or.inl rfl⟩
  · rw [if_neg h1]
    exact ⟨rfl, Or.inr rfl⟩

/-- C4 counterexample: when both lookups fail at transport level, one
resolution issues TWO search calls (not at most one), the empty outcome is NOT
cached, and a repeated resolution of the same name issues two further calls. -/
theorem logo_resolution_counterexample :
    (getLogo (fun _ => none) [] "Sparta" "")
      = (placeholderURL, ([] : LogoCache), 2)
    ∧ ¬ ((getLogo (fun _ => none) [] "Sparta" "").2.2 ≤ 1)
    ∧ (getLogo (fun _ => none)
        ((getLogo (fun _ => none) [] "Sparta" "").2.1) "Sparta" "").2.2 = 2 := by
  refine ⟨by decide, by decide, by decide⟩

/-- C4 amended: an empty/bye name yields the placeholder and a non-empty id
the id-templated URL, both with zero lookups; a cache hit issues zero lookups;
otherwise the token-first (then full-name) search issues at most two lookups;
the outcome is cached keyed by the lower-cased trimmed name UNLESS the
full-name fallback itself failed, in which case nothing is cached; and once
the key is cached, a repeated resolution of the same name issues zero
lookups. -/
theorem logo_resolution_amended (search : SearchFn) (cache : LogoCache)
    (tn tid : String) :
    (getLogo search cache tn tid).2.2 ≤ 2
    ∧ (isNonTeamName (lowerS (trimS tn)) = true →
        getLogo search cache tn tid = (placeholderURL, cache, 0))
    ∧ (isNonTeamName (lowerS (trimS tn)) = false → trimS tid ≠ "" →
        getLogo search cache tn tid = (idLogoURL (trimS tid), cache, 0))
    ∧ ((cacheGet cache (lowerS (trimS tn))).isSome = true →
        (getLogo search cache tn tid).2.2 = 0)
    ∧ ((getLogo search cache tn tid).2.2 > 0 →
        (cacheGet (getLogo search cache tn tid).2.1 (lowerS (trimS tn))).isSome = true
        ∨ search tn = none)
    ∧ ((cacheGet (getLogo search cache tn tid).2.1 (lowerS (trimS tn))).isSome = true →
        (getLogo search (getLogo search cache tn tid).2.1 tn tid).2.2 = 0) := by
  have hmarkP : ∀ c : LogoCache, isNonTeamName (lowerS (trimS tn)) = true →
      getLogo search c tn tid = (placeholderURL, c, 0) := by
    intro c hm
    unfold getLogo
    rw [if_pos hm]
  have hidP : ∀ c : LogoCache, isNonTeamName (lowerS (trimS tn)) = false →
      trimS tid ≠ "" → getLogo search c tn tid = (idLogoURL (trimS tid), c, 0) := by
    intro c hm hid
    unfold getLogo
    rw [if_neg (by rw [hm]; simp), if_pos hid]
  by_cases hm : isNonTeamName (lowerS (trimS tn)) = true
  · rw [hmarkP cache hm]
    refine ⟨by simp, fun _ => rfl, ?_, fun _ => rfl, by simp, ?_⟩
    · intro hmf
      rw [hm] at hmf
      cases hmf
    · intro _
      rw [hmarkP cache hm]
  · have hm' : isNonTeamName (lowerS (trimS tn)) = false := by
      cases h : isNonTeamName (lowerS (trimS tn))
      · rfl
      · exact absurd h hm
    by_cases hid : trimS tid ≠ ""
    · rw [hidP cache hm' hid]
      refine ⟨by simp, ?_, fun _ _ => rfl, fun _ => rfl, by simp, ?_⟩
      · intro hmf
        exact absurd hmf hm
      · intro _
        rw [hidP cache hm' hid]
    · have hid' : trimS tid = "" := by
        by_contra hh
        exact hid hh
      obtain ⟨hpair, hurl⟩ := getLogo_search_branch search cache tn tid hm' hid'
      have hcalls : (getLogo search cache tn tid).2.2 = (getLogoBySearch search cache tn).2.2 :=
        congrArg Prod.snd hpair
      have hcache : (getLogo search cache tn tid).2.1 = (getLogoBySearch search cache tn).2.1 :=
        congrArg Prod.fst hpair
      rcases getLogoBySearch_char search cache tn with
        ⟨hk, hres⟩ | ⟨v, hv, hres⟩ | ⟨hv, best, n, hn1, hn2, hres⟩ | ⟨hv, hs, hres⟩
      · refine ⟨?_, fun hmf => absurd hmf hm, fun _ hh => absurd hid' hh, ?_, ?_, ?_⟩
        · rw [hcalls, hres]
          simp
        · intro _
          rw [hcalls, hres]
        · intro hpos
          rw [hcalls, hres] at hpos
          cases hpos
        · intro _
          obtain ⟨hpair2, _⟩ := getLogo_search_branch search
            (getLogo search cache tn tid).2.1 tn tid hm' hid'
          have : (getLogo search (getLogo search cache tn tid).2.1 tn tid).2.2
              = (getLogoBySearch search (getLogo search cache tn tid).2.1 tn).2.2 :=
            congrArg Prod.snd hpair2
          rw [this]
          unfold getLogoBySearch
          rw [if_pos hk]
      · refine ⟨?_, fun hmf => absurd hmf hm, fun _ hh => absurd hid' hh, ?_, ?_, ?_⟩
        · rw [hcalls, hres]
          simp
        · intro _
          rw [hcalls, hres]
        · intro hpos
          rw [hcalls, hres] at hpos
          cases hpos
        · intro hcached
          obtain ⟨hpair2, _⟩ := getLogo_search_branch search
            (getLogo search cache tn tid).2.1 tn tid hm' hid'
          have heq2 : (getLogo search (getLogo search cache tn tid).2.1 tn tid).2.2
              = (getLogoBySearch search (getLogo search cache tn tid).2.1 tn).2.2 :=
            congrArg Prod.snd hpair2
          rw [heq2]
          obtain ⟨w, hw⟩ := Option.isSome_iff_exists.mp hcached
          unfold getLogoBySearch
          by_cases hk : lowerS (trimS tn) = ""
          · rw [if_pos hk]
          · rw [if_neg hk, hw]
      · refine ⟨?_, fun hmf => absurd hmf hm, fun _ hh => absurd hid' hh, ?_, ?_, ?_⟩
        · rw [hcalls, hres]
          simpa using hn2
        · intro hcached
          rw [hv] at hcached
          cases hcached
        · intro _
          left
          rw [hcache, hres]
          simp [cacheGet_cacheSet]
        · intro hcached
          obtain ⟨hpair2, _⟩ := getLogo_search_branch search
            (getLogo search cache tn tid).2.1 tn tid hm' hid'
          have heq2 : (getLogo search (getLogo search cache tn tid).2.1 tn tid).2.2
              = (getLogoBySearch search (getLogo search cache tn tid).2.1 tn).2.2 :=
            congrArg Prod.snd hpair2
          rw [heq2]
          obtain ⟨w, hw⟩ := Option.isSome_iff_exists.mp hcached
          unfold getLogoBySearch
          by_cases hk : lowerS (trimS tn) = ""
          · rw [if_pos hk]
          · rw [if_neg hk, hw]
      · refine ⟨?_, fun hmf => absurd hmf hm, fun _ hh => absurd hid' hh, ?_, ?_, ?_⟩
        · rw [hcalls, hres]
        · intro hcached
          rw [hv] at hcached
          cases hcached
        · intro _
          right
          exact hs
        · intro hcached
          obtain ⟨hpair2, _⟩ := getLogo_search_branch search
            (getLogo search cache tn tid).2.1 tn tid hm' hid'
          have heq2 : (getLogo search (getLogo search cache tn tid).2.1 tn tid).2.2
              = (getLogoBySearch search (getLogo search cache tn tid).2.1 tn).2.2 :=
            congrArg Prod.snd hpair2
          rw [heq2]
          obtain ⟨w, hw⟩ := Option.isSome_iff_exists.mp hcached
          unfold getLogoBySearch
          by_cases hk : lowerS (trimS tn) = ""
          · rw [if_pos hk]
          · rw [if_neg hk, hw]

/-- C4 amended witness: the amended theorem applied at concrete inputs — a
bye marker resolves to the placeholder with zero lookups, and a successful
search caches its outcome so a repeat issues zero lookups. -/
theorem logo_resolution_amended_witness :
    (isNonTeamName (lowerS (trimS "volno")) = true
      ∧ getLogo (fun _ => some []) [] "volno" ""
          = (placeholderURL, ([] : LogoCache), 0))
    ∧ ((cacheGet [("sparta", "u")] (lowerS (trimS "Sparta"))).isSome = true
      ∧ (getLogo (fun _ => some []) [("sparta", "u")] "Sparta" "").2.2 = 0) :=
  ⟨⟨by decide, (logo_resolution_amended (fun _ => some []) [] "volno" "").2.1 (by decide)⟩,
   ⟨by decide, (logo_resolution_amended (fun _ => some [])
      [("sparta", "u")] "Sparta" "").2.2.2.1 (by decide)⟩⟩

/-- C10: for every search capability, cache state, team name and team id,
`getLogo` returns a non-empty URL — the placeholder, the id-templated URL, or
a non-empty search result. -/
theorem logo_never_empty (search : SearchFn) (cache : LogoCache)
    (tn tid : String) : (getLogo search cache tn tid).1 ≠ "" := by
  unfold getLogo
  split
  · show placeholderURL ≠ ""
    decide
  · split
    · next hid =>
      show idLogoURL (trimS tid) ≠ ""
      intro h
      have hlen := congrArg String.length h
      rw [idLogoURL, String.length_append, String.length_append,
        String.length_append, String.length_append] at hlen
      have h34 : ("https://is1.fotbal.cz/media/kluby/" : String).length = 34 := by decide
      have hsl : ("/" : String).length = 1 := by decide
      have h9 : ("_crop.jpg" : String).length = 9 := by decide
      have h0 : ("" : String).length = 0 := by decide
      rw [h34, hsl, h9, h0] at hlen
      omega
    · split
      · next h1 => exact h1
      · show placeholderURL ≠ ""
        decide

end Facr
